import Mathlib

/-!
Verification of the ClaimGuardian geospatial risk pipeline.

The development shallowly embeds two source components:

* `models/risk/risk_model.py` — the hurricane risk scoring model
  (`FloridaHurricaneRiskModel.calculate_risk_components` and
  `FloridaHurricaneRiskModel.predict_risk`).  Python floats are embedded
  as exact rationals `ℚ`; a missing dictionary key is an `Option` read
  through `Option.getD` with the source default.
* `scripts/geospatial-etl-pipeline.py` — the batch ETL driver, the
  property–parcel linkage resolver, the active-event impact detector and
  the retention cleanup.  The relational stores are embedded as lists of
  rows; the SQL statements become list transformations that mirror the
  statements' semantics row by row.
-/

namespace ClaimGuardian

/-- The `parcel_data : Dict` argument of the risk model.  A `none` field is
an absent dictionary key; every read goes through `Option.getD` with the
default used at the corresponding `parcel_data.get(key, default)` call in
the source. -/
structure ParcelData where
  parcel_id : Option String := none
  centroid_lat : Option ℚ := none
  centroid_lon : Option ℚ := none
  just_value : Option ℚ := none
  distance_to_coast_km : Option ℚ := none
  elevation_ft : Option ℚ := none
  hurricane_count_20yr : Option ℚ := none
  max_wind_kts : Option ℚ := none
  building_age_years : Option ℚ := none
  county_fips : Option String := none
deriving DecidableEq

/-- `RiskComponents` dataclass: the five component scores. -/
structure RiskComponents where
  hurricane_historical : ℚ
  wind_vulnerability : ℚ
  surge_exposure : ℚ
  economic_factor : ℚ
  geographic_factor : ℚ
deriving DecidableEq

/-- `RiskScore` dataclass: the complete assessment for one parcel. -/
structure RiskScore where
  parcel_id : String
  overall_score : ℚ
  confidence : ℚ
  components : RiskComponents
  risk_category : String
deriving DecidableEq

/-- `FloridaHurricaneRiskModel.calculate_risk_components`, line for line. -/
def calculate_risk_components (pd : ParcelData) : RiskComponents :=
  let hurricane_count := pd.hurricane_count_20yr.getD 0
  let hurricane_historical := min (hurricane_count / 8) 1
  let max_wind := pd.max_wind_kts.getD 0
  let building_age := pd.building_age_years.getD 30
  let wind_vulnerability := min ((max_wind / 150) * (building_age / 50)) 1
  let elevation := pd.elevation_ft.getD 10
  let distance_coast := pd.distance_to_coast_km.getD 50
  let surge_exposure := max 0 (1 - elevation / 20 - distance_coast / 10)
  let property_value := pd.just_value.getD 100000
  let economic_factor := min (property_value / 2000000) 1
  let lat := pd.centroid_lat.getD 27
  let county_fips := pd.county_fips.getD "12000"
  let south_florida_factor : ℚ := if lat < 26.5 then 1 else if lat < 27.5 then 0.7 else 0.5
  let keys_factor : ℚ := if county_fips = "12087" then 1 else 0
  let geographic_factor := min (south_florida_factor + keys_factor) 1
  { hurricane_historical := hurricane_historical
    wind_vulnerability := wind_vulnerability
    surge_exposure := surge_exposure
    economic_factor := economic_factor
    geographic_factor := geographic_factor }

/-- `FloridaHurricaneRiskModel.predict_risk`.  The optional trained ML
predictor (`self.model`, an external collaborator) is passed as an abstract
function `model`; `none` selects the fallback weighted component average
exactly as in the source. -/
def predict_risk (model : Option (ParcelData → ℚ)) (pd : ParcelData) : RiskScore :=
  let components := calculate_risk_components pd
  let ml_score : ℚ :=
    match model with
    | some f => f pd
    | none =>
        components.hurricane_historical * 0.25 +
        components.wind_vulnerability * 0.25 +
        components.surge_exposure * 0.20 +
        components.economic_factor * 0.15 +
        components.geographic_factor * 0.15
  let confidence : ℚ := match model with | some _ => 0.85 | none => 0.60
  let overall_score := max 0 (min 1 ml_score)
  let risk_category :=
    if 0.8 ≤ overall_score then "EXTREME"
    else if 0.6 ≤ overall_score then "HIGH"
    else if 0.4 ≤ overall_score then "MODERATE"
    else if 0.2 ≤ overall_score then "LOW"
    else "MINIMAL"
  { parcel_id := pd.parcel_id.getD "unknown"
    overall_score := overall_score
    confidence := confidence
    components := components
    risk_category := risk_category }

/-- The Monroe-county (Florida Keys) sample parcel of the spec scenario and
of `demo_risk_scoring`. -/
def monroe_parcel : ParcelData :=
  { parcel_id := some "12087-001234"
    centroid_lat := some 24.7
    centroid_lon := some (-81.2)
    just_value := some 800000
    distance_to_coast_km := some 0.5
    elevation_ft := some 8
    hurricane_count_20yr := some 6
    max_wind_kts := some 140
    building_age_years := some 25
    county_fips := some "12087" }

/-! ## Batch Risk Assessment Driver

`GeospatialETLPipeline.calculate_parcel_risk_assessments` paginates over
`geospatial.parcels` ordered by `parcel_id` (`LIMIT batch OFFSET k`) and,
for each parcel, executes an `INSERT ... ON CONFLICT (parcel_id,
assessment_date) DO UPDATE` into `geospatial.parcel_risk_assessment`.

The table is embedded as a list of rows.  The SQL risk computation
(`geospatial.calculate_risk_score`, the facility-distance and hazard-zone
functions) lives in the database, outside the pipeline script; it is
passed in as an abstract function `assess : String → Option α` on the
parcel id, where `none` models the per-parcel statement raising an
exception (caught by the `try/except` around the row) and `some payload`
the computed score fields.  `commit_ok offset` models whether
`conn.commit()` for the page at that offset succeeds. -/

/-- One row of `geospatial.parcel_risk_assessment`.  `scores` stands for
all score/data columns written by the upsert; `assessment_date` is a day
number.  Modelled from the spec: the `INSERT` does not list
`assessment_date`, whose schema default (the current date) is not under
the repository sources; per the spec, assessments are keyed by
`(parcel_id, today's date)`. -/
structure AssessmentRow (α : Type) where
  parcel_id : String
  scores : α
  assessment_date : ℤ
  updated_at : ℤ
deriving DecidableEq

/-- The `(parcel_id, assessment_date)` conflict key of the upsert. -/
def sameKey {α : Type} (pid : String) (d : ℤ) (r : AssessmentRow α) : Bool :=
  r.parcel_id == pid && r.assessment_date == d

/-- `INSERT ... ON CONFLICT (parcel_id, assessment_date) DO UPDATE`: if a
row with the key exists it gets the new scores and a bumped `updated_at`,
otherwise a new row is inserted. -/
def upsert_assessment {α : Type} (today now : ℤ) (pid : String) (payload : α)
    (s : List (AssessmentRow α)) : List (AssessmentRow α) :=
  if s.any (sameKey pid today) then
    s.map fun r =>
      if sameKey pid today r then { r with scores := payload, updated_at := now } else r
  else
    { parcel_id := pid, scores := payload, assessment_date := today, updated_at := now } :: s

/-- The per-parcel body of the page loop, including the `try/except`: a
failing parcel (`assess pid = none`) leaves the store untouched and logs
the parcel's identity; a succeeding one runs the upsert. -/
def process_parcel {α : Type} (assess : String → Option α) (today now : ℤ) :
    List (AssessmentRow α) × List String → String → List (AssessmentRow α) × List String
  | (s, log), pid =>
    match assess pid with
    | some payload => (upsert_assessment today now pid payload s, log)
    | none => (s, log ++ [pid])

/-- One page of the driver: the inner `for parcel in parcels` loop. -/
def process_page {α : Type} (assess : String → Option α) (today now : ℤ)
    (st : List (AssessmentRow α) × List String) (page : List String) :
    List (AssessmentRow α) × List String :=
  page.foldl (process_parcel assess today now) st

/-- The store component of one page, ignoring the error log. -/
def process_page_store {α : Type} (assess : String → Option α) (today now : ℤ)
    (s : List (AssessmentRow α)) (page : List String) : List (AssessmentRow α) :=
  page.foldl
    (fun s pid =>
      match assess pid with
      | some payload => upsert_assessment today now pid payload s
      | none => s) s

/-- The `LIMIT batch OFFSET k` pagination of a list, fuelled by its
length. -/
def to_pages_aux {β : Type} (batch : ℕ) : ℕ → List β → List (List β)
  | _, [] => []
  | 0, _ :: _ => []
  | fuel + 1, p :: l => ((p :: l).take batch) :: to_pages_aux batch fuel ((p :: l).drop batch)

/-- The pages visited by the driver's `while offset < total_parcels`
loop. -/
def to_pages {β : Type} (batch : ℕ) (l : List β) : List (List β) :=
  to_pages_aux batch l.length l

/-- The driver's page loop.  After each page, `conn.commit()` runs at the
current offset; on commit failure the exception propagates (the run halts
at that offset), the page's uncommitted store changes are rolled back, and
the already-written log survives. -/
def run_pages {α : Type} (assess : String → Option α) (commit_ok : ℕ → Bool) (batch : ℕ)
    (today now : ℤ) :
    ℕ → List (AssessmentRow α) × List String → List (List String) →
    Except (ℕ × List (AssessmentRow α) × List String)
      (List (AssessmentRow α) × List String)
  | _, st, [] => .ok st
  | offset, st, page :: rest =>
    let st' := process_page assess today now st page
    if commit_ok offset then run_pages assess commit_ok batch today now (offset + batch) st' rest
    else .error (offset, st.1, st'.2)

/-- `GeospatialETLPipeline.calculate_parcel_risk_assessments`: paginate
over the ordered parcel-id list and upsert one assessment per parcel for
today's date. -/
def calculate_parcel_risk_assessments {α : Type} (assess : String → Option α)
    (commit_ok : ℕ → Bool) (batch : ℕ) (today now : ℤ) (parcels : List String)
    (s : List (AssessmentRow α)) :
    Except (ℕ × List (AssessmentRow α) × List String)
      (List (AssessmentRow α) × List String) :=
  run_pages assess commit_ok batch today now 0 (s, []) (to_pages batch parcels)

/-- The `(parcel_id, assessment_date)` keys of a store. -/
def keys {α : Type} (s : List (AssessmentRow α)) : List (String × ℤ) :=
  s.map fun r => (r.parcel_id, r.assessment_date)

/-- The store satisfies the table's unique constraint on
`(parcel_id, assessment_date)`. -/
def KeysNodup {α : Type} (s : List (AssessmentRow α)) : Prop := (keys s).Nodup

/-- The rows of a store holding a given `(parcel_id, assessment_date)`
key. -/
def rows_for {α : Type} (pid : String) (d : ℤ) (s : List (AssessmentRow α)) :
    List (AssessmentRow α) :=
  s.filter (sameKey pid d)

/-- Concrete inputs exercising C9: page `["a", "bad"]` has one failing
parcel, the commit succeeds at offset 0 and fails at offset 2. -/
def assessW : String → Option ℕ := fun p => if p = "bad" then none else some p.length

/-- Concrete commit oracle for the C9 witness: only the commit at offset 0
succeeds. -/
def commitW : ℕ → Bool := fun off => off == 0

/-- Concrete page list for the C9 witness. -/
def pagesW : List (List String) := [["a", "bad"], ["c"], ["d"]]

/-! ## Retention Cleanup

`GeospatialETLPipeline.cleanup_old_data` runs (at most) two DELETE
statements.  For `risk_assessments` the delete predicate is

  `assessment_date < CURRENT_DATE - INTERVAL 'N days'
   AND assessment_date NOT IN
     (SELECT MAX(assessment_date) FROM parcel_risk_assessment GROUP BY parcel_id)`

Note the subquery is NOT correlated with the outer row's parcel: it is the
set of per-parcel maximum dates over all parcels.  Dates are embedded as
day numbers `ℤ`, `CURRENT_DATE` as the parameter `today`. -/

/-- Per-parcel maximum assessment date: one row of the grouped subquery
`SELECT MAX(assessment_date) ... GROUP BY parcel_id`. -/
def parcel_max_date {α : Type} (s : List (AssessmentRow α)) (pid : String) : Option ℤ :=
  ((s.filter (fun r => r.parcel_id == pid)).map (fun r => r.assessment_date)).max?

/-- The full result of the grouped subquery: one maximum date per parcel
occurring in the table. -/
def latest_dates {α : Type} (s : List (AssessmentRow α)) : List ℤ :=
  ((s.map (fun r => r.parcel_id)).dedup).filterMap (parcel_max_date s)

/-- The `risk_assessments` DELETE of `cleanup_old_data`, as the filter
keeping the rows the statement does not delete. -/
def cleanup_risk_assessments {α : Type} (today n : ℤ) (s : List (AssessmentRow α)) :
    List (AssessmentRow α) :=
  s.filter (fun r =>
    !(decide (r.assessment_date < today - n) && !((latest_dates s).contains r.assessment_date)))

/-- Concrete three-row store: parcel `A` has assessments on days 0 and 10,
parcel `B` only on day 0. -/
def exampleAssessments : List (AssessmentRow ℕ) :=
  [{ parcel_id := "A", scores := 0, assessment_date := 0, updated_at := 0 },
   { parcel_id := "A", scores := 0, assessment_date := 10, updated_at := 0 },
   { parcel_id := "B", scores := 0, assessment_date := 0, updated_at := 0 }]

/-! ## Database model for the remaining pipeline steps

Row types for the tables touched by `geospatial-etl-pipeline.py`.
Geometry values (PostGIS `geom` columns) are an abstract type `γ`;
the spatial predicate `ST_Intersects` and the trigram `similarity`
function (as well as `LOWER ∘ TRIM`) are PostgreSQL built-ins evaluated in
the database and are passed in as abstract functions. -/

/-- One row of `geospatial.active_events`. -/
structure EventRow (γ : Type) where
  id : ℕ
  event_type : String
  event_name : String
  status : String
  geom : γ
  updated_at : ℤ
deriving DecidableEq

/-- One row of `geospatial.parcels` (the columns this pipeline reads). -/
structure ParcelRow (γ : Type) where
  parcel_id : String
  county_name : String
  property_address : String
  geom : γ
deriving DecidableEq

/-- One row of `public.properties` (the columns this pipeline reads and
writes). -/
structure PropertyRow where
  id : ℕ
  user_id : String
  name : String
  street_address : String
  city : String
  zip_code : String
  county : String
  parcel_id : Option String
deriving DecidableEq

/-- One row of `public.notifications` (the id columns of its `data`
payload plus `created_at`, in hours). -/
structure NotificationRow where
  user_id : String
  event_id : ℕ
  property_id : ℕ
  created_at : ℤ
deriving DecidableEq

/-- One row of `public.analytics_metrics` (identifying columns only). -/
structure MetricRow where
  metric_type : String
  metric_name : String
  timestamp : ℤ
deriving DecidableEq

/-- The stores the pipeline touches. -/
structure Database (α γ : Type) where
  parcels : List (ParcelRow γ)
  properties : List PropertyRow
  parcel_risk_assessment : List (AssessmentRow α)
  active_events : List (EventRow γ)
  notifications : List NotificationRow
  analytics_metrics : List MetricRow
deriving DecidableEq

/-- The retention-days mapping passed to `cleanup_old_data`; a `none`
field is an absent dictionary key. -/
structure RetentionDays where
  active_events : Option ℤ := none
  risk_assessments : Option ℤ := none
deriving DecidableEq

/-- `GeospatialETLPipeline.cleanup_old_data`: the `active_events` DELETE
(`status != 'active' AND updated_at < now - N days`) runs only when the
mapping has the `active_events` key, then the `risk_assessments` DELETE
runs only when the mapping has the `risk_assessments` key.  `now` is the
`CURRENT_TIMESTAMP` and `today` the `CURRENT_DATE` at execution. -/
def cleanup_old_data {α γ : Type} (now today : ℤ) (ret : RetentionDays)
    (db : Database α γ) : Database α γ :=
  let db1 :=
    match ret.active_events with
    | none => db
    | some n =>
      { db with
        active_events := db.active_events.filter (fun e =>
          !(!(e.status == "active") && decide (e.updated_at < now - n))) }
  match ret.risk_assessments with
  | none => db1
  | some n =>
    { db1 with
      parcel_risk_assessment := cleanup_risk_assessments today n db1.parcel_risk_assessment }

/-- Concrete parcel row for witnesses. -/
def parcelW : ParcelRow ℕ :=
  { parcel_id := "P1", county_name := "Monroe", property_address := "456 oak ave", geom := 0 }

/-- Concrete unlinked property row for witnesses. -/
def propW : PropertyRow :=
  { id := 1, user_id := "u1", name := "Home", street_address := "123 main st",
    city := "tampa", zip_code := "33601", county := "Monroe", parcel_id := none }

/-- Concrete database for witnesses. -/
def dbW : Database ℕ ℕ :=
  { parcels := [parcelW], properties := [propW], parcel_risk_assessment := [],
    active_events := [], notifications := [], analytics_metrics := [] }

/-! ## Parcel-Linkage Resolver

`GeospatialETLPipeline.update_property_parcel_links` runs one UPDATE on
`public.properties` restricted to `parcel_id IS NULL`, joining
`geospatial.parcels` on `(exact normalized address match OR
similarity(...) > 0.8) AND p.county = gp.county_name`.  The PostgreSQL
built-ins `LOWER ∘ TRIM` and the pg_trgm `similarity` are abstract
parameters `lower_trim` and `sim`.  When several parcels satisfy the join
condition PostgreSQL applies one of them; the embedding determinizes this
by taking the first match. -/

/-- The normalized constructed full address
`LOWER(TRIM(p.street_address || ' ' || p.city || ', FL ' || p.zip_code))`. -/
def norm_full_address (lower_trim : String → String) (p : PropertyRow) : String :=
  lower_trim (p.street_address ++ " " ++ p.city ++ ", FL " ++ p.zip_code)

/-- The normalized street+city string
`LOWER(TRIM(p.street_address || ' ' || p.city))`. -/
def norm_street_city (lower_trim : String → String) (p : PropertyRow) : String :=
  lower_trim (p.street_address ++ " " ++ p.city)

/-- The UPDATE's join condition between one property and one parcel:
exact normalized address equality, or trigram similarity strictly above
`0.8`; in both cases the county must match. -/
def link_match {γ : Type} (lower_trim : String → String) (sim : String → String → ℚ)
    (p : PropertyRow) (gp : ParcelRow γ) : Bool :=
  (norm_full_address lower_trim p == lower_trim gp.property_address
      || decide (sim (norm_street_city lower_trim p) (lower_trim gp.property_address) > 0.8))
    && p.county == gp.county_name

/-- The UPDATE's effect on one property row: rows with
`parcel_id IS NULL` matching some parcel get that parcel's id, all other
rows are outside the `WHERE` clause and are untouched. -/
def link_property {γ : Type} (lower_trim : String → String) (sim : String → String → ℚ)
    (parcels : List (ParcelRow γ)) (p : PropertyRow) : PropertyRow :=
  if p.parcel_id.isNone then
    match parcels.find? (link_match lower_trim sim p) with
    | some gp => { p with parcel_id := some gp.parcel_id }
    | none => p
  else p

/-- `GeospatialETLPipeline.update_property_parcel_links`. -/
def update_property_parcel_links {α γ : Type} (lower_trim : String → String)
    (sim : String → String → ℚ) (db : Database α γ) : Database α γ :=
  { db with
    properties := db.properties.map (link_property lower_trim sim db.parcels) }

/-- Concrete database whose single property is already linked. -/
def dbLinked : Database ℕ ℕ :=
  { dbW with properties := [{ propW with parcel_id := some "P9" }] }

/-! ## Active-Event Impact Detector

`GeospatialETLPipeline.detect_active_event_impacts` runs one set-based
`INSERT ... SELECT` over the `affected_properties` CTE (active events
joined to intersecting parcels joined to linked properties), guarded per
row by a `NOT EXISTS` dedup subquery over `public.notifications`.  The
subquery reads the statement's snapshot, i.e. the notifications present
before the statement started.  Timestamps are hours (`ℤ`); the dedup
window is `INTERVAL '24 hours'`. -/

/-- The `affected_properties` CTE: one `(user_id, event_id, property_id)`
triple per joined row. -/
def affected_triples {γ : Type} (intersects : γ → γ → Bool) (events : List (EventRow γ))
    (parcels : List (ParcelRow γ)) (props : List PropertyRow) : List (String × ℕ × ℕ) :=
  (events.filter (fun ae => ae.status == "active")).flatMap (fun ae =>
    (parcels.filter (fun gp => intersects ae.geom gp.geom)).flatMap (fun gp =>
      (props.filter (fun p => p.parcel_id == some gp.parcel_id)).map
        (fun p => (p.user_id, ae.id, p.id))))

/-- The `NOT EXISTS` dedup subquery: an existing notification with the
same (user, event, property) created within the trailing 24 hours. -/
def dup_exists (notifs : List NotificationRow) (now : ℤ) (t : String × ℕ × ℕ) : Bool :=
  notifs.any (fun n =>
    n.user_id == t.1 && n.event_id == t.2.1 && n.property_id == t.2.2 &&
      decide (n.created_at > now - 24))

/-- The notification row the INSERT builds for one affected triple at
time `now`. -/
def notif_of (now : ℤ) (t : String × ℕ × ℕ) : NotificationRow :=
  { user_id := t.1, event_id := t.2.1, property_id := t.2.2, created_at := now }

/-- `GeospatialETLPipeline.detect_active_event_impacts`. -/
def detect_active_event_impacts {α γ : Type} (intersects : γ → γ → Bool) (now : ℤ)
    (db : Database α γ) : Database α γ :=
  { db with
    notifications := db.notifications ++
      ((affected_triples intersects db.active_events db.parcels db.properties).filterMap
        (fun t =>
          if dup_exists db.notifications now t then none
          else some (notif_of now t))) }

/-- Successive runs of the detector at the given times. -/
def run_detector_seq {α γ : Type} (intersects : γ → γ → Bool) (times : List ℤ)
    (db : Database α γ) : Database α γ :=
  times.foldl (fun d t => detect_active_event_impacts intersects t d) db

/-- No two notifications for the same (user, event, property) triple were
created within 24 hours of each other. -/
def NoDup24 (s : List NotificationRow) : Prop :=
  s.Pairwise (fun n1 n2 =>
    n1.user_id = n2.user_id → n1.event_id = n2.event_id →
      n1.property_id = n2.property_id → 24 ≤ |n1.created_at - n2.created_at|)

/-- Every notification in the store was created no later than `t`. -/
def CreatedBefore (t : ℤ) (s : List NotificationRow) : Prop :=
  ∀ n ∈ s, n.created_at ≤ t

/-- The key constraints of the joined tables: unique event ids, parcel
ids and property ids. -/
def UniqueIds {α γ : Type} (db : Database α γ) : Prop :=
  (db.active_events.map EventRow.id).Nodup ∧
  (db.parcels.map ParcelRow.parcel_id).Nodup ∧
  (db.properties.map PropertyRow.id).Nodup

/-- Concrete active event for the C4 witness. -/
def eventW : EventRow ℕ :=
  { id := 10, event_type := "Hurricane", event_name := "Milton", status := "active",
    geom := 5, updated_at := 0 }

/-- Concrete database for the C4 witness: one active event whose geometry
matches the parcel linked to the property. -/
def dbDetect : Database ℕ ℕ :=
  { parcels := [{ parcelW with geom := 5 }],
    properties := [{ propW with parcel_id := some "P1" }],
    parcel_risk_assessment := [], active_events := [eventW], notifications := [],
    analytics_metrics := [] }

/-- Each component score lies in `[0,1]` when every numeric attribute read
by the component formulas is non-negative. -/
lemma calculate_risk_components_bounds (pd : ParcelData)
    (h1 : 0 ≤ pd.hurricane_count_20yr.getD 0)
    (h2 : 0 ≤ pd.max_wind_kts.getD 0)
    (h3 : 0 ≤ pd.building_age_years.getD 30)
    (h4 : 0 ≤ pd.elevation_ft.getD 10)
    (h5 : 0 ≤ pd.distance_to_coast_km.getD 50)
    (h6 : 0 ≤ pd.just_value.getD 100000) :
    (0 ≤ (calculate_risk_components pd).hurricane_historical ∧
      (calculate_risk_components pd).hurricane_historical ≤ 1) ∧
    (0 ≤ (calculate_risk_components pd).wind_vulnerability ∧
      (calculate_risk_components pd).wind_vulnerability ≤ 1) ∧
    (0 ≤ (calculate_risk_components pd).surge_exposure ∧
      (calculate_risk_components pd).surge_exposure ≤ 1) ∧
    (0 ≤ (calculate_risk_components pd).economic_factor ∧
      (calculate_risk_components pd).economic_factor ≤ 1) ∧
    (0 ≤ (calculate_risk_components pd).geographic_factor ∧
      (calculate_risk_components pd).geographic_factor ≤ 1) := by
  simp only [calculate_risk_components]
  refine ⟨⟨le_min (by positivity) (by norm_num), min_le_right _ _⟩,
    ⟨le_min (by positivity) (by norm_num), min_le_right _ _⟩,
    ⟨le_max_left _ _, max_le (by norm_num) (by linarith [div_nonneg h4 (by norm_num : (0:ℚ) ≤ 20), div_nonneg h5 (by norm_num : (0:ℚ) ≤ 10)])⟩,
    ⟨le_min (by positivity) (by norm_num), min_le_right _ _⟩,
    ⟨le_min ?_ (by norm_num), min_le_right _ _⟩⟩
  split_ifs <;> norm_num

/-- C1: for every input parcel-attribute mapping with non-negative numeric
attributes, each of the five `RiskComponents` fields lies in `[0,1]`, the
composite (overall) score lies in `[0,1]`, and the risk category is the
pure deterministic function of the composite score given by the fixed
thresholds: `≥ 0.8` EXTREME, `≥ 0.6` HIGH, `≥ 0.4` MODERATE, `≥ 0.2` LOW,
else MINIMAL. -/
theorem predict_risk_bounds_and_category (model : Option (ParcelData → ℚ)) (pd : ParcelData)
    (h1 : 0 ≤ pd.hurricane_count_20yr.getD 0)
    (h2 : 0 ≤ pd.max_wind_kts.getD 0)
    (h3 : 0 ≤ pd.building_age_years.getD 30)
    (h4 : 0 ≤ pd.elevation_ft.getD 10)
    (h5 : 0 ≤ pd.distance_to_coast_km.getD 50)
    (h6 : 0 ≤ pd.just_value.getD 100000) :
    (0 ≤ (predict_risk model pd).components.hurricane_historical ∧
      (predict_risk model pd).components.hurricane_historical ≤ 1) ∧
    (0 ≤ (predict_risk model pd).components.wind_vulnerability ∧
      (predict_risk model pd).components.wind_vulnerability ≤ 1) ∧
    (0 ≤ (predict_risk model pd).components.surge_exposure ∧
      (predict_risk model pd).components.surge_exposure ≤ 1) ∧
    (0 ≤ (predict_risk model pd).components.economic_factor ∧
      (predict_risk model pd).components.economic_factor ≤ 1) ∧
    (0 ≤ (predict_risk model pd).components.geographic_factor ∧
      (predict_risk model pd).components.geographic_factor ≤ 1) ∧
    (0 ≤ (predict_risk model pd).overall_score ∧
      (predict_risk model pd).overall_score ≤ 1) ∧
    (predict_risk model pd).risk_category =
      (if 0.8 ≤ (predict_risk model pd).overall_score then "EXTREME"
       else if 0.6 ≤ (predict_risk model pd).overall_score then "HIGH"
       else if 0.4 ≤ (predict_risk model pd).overall_score then "MODERATE"
       else if 0.2 ≤ (predict_risk model pd).overall_score then "LOW"
       else "MINIMAL") := by
  obtain ⟨c1, c2, c3, c4, c5⟩ := calculate_risk_components_bounds pd h1 h2 h3 h4 h5 h6
  have hcomp : (predict_risk model pd).components = calculate_risk_components pd := by
    simp only [predict_risk]
  rw [hcomp]
  refine ⟨c1, c2, c3, c4, c5, ⟨le_max_left _ _, ?_⟩, ?_⟩
  · simp only [predict_risk]
    exact max_le (by norm_num) (min_le_left _ _)
  · simp only [predict_risk]

/-- C1 witness: the bounds and threshold property hold at the concrete
Monroe-county sample parcel. -/
theorem predict_risk_bounds_and_category_witness :
    (0 ≤ (predict_risk none monroe_parcel).components.hurricane_historical ∧
      (predict_risk none monroe_parcel).components.hurricane_historical ≤ 1) ∧
    (0 ≤ (predict_risk none monroe_parcel).components.wind_vulnerability ∧
      (predict_risk none monroe_parcel).components.wind_vulnerability ≤ 1) ∧
    (0 ≤ (predict_risk none monroe_parcel).components.surge_exposure ∧
      (predict_risk none monroe_parcel).components.surge_exposure ≤ 1) ∧
    (0 ≤ (predict_risk none monroe_parcel).components.economic_factor ∧
      (predict_risk none monroe_parcel).components.economic_factor ≤ 1) ∧
    (0 ≤ (predict_risk none monroe_parcel).components.geographic_factor ∧
      (predict_risk none monroe_parcel).components.geographic_factor ≤ 1) ∧
    (0 ≤ (predict_risk none monroe_parcel).overall_score ∧
      (predict_risk none monroe_parcel).overall_score ≤ 1) ∧
    (predict_risk none monroe_parcel).risk_category =
      (if 0.8 ≤ (predict_risk none monroe_parcel).overall_score then "EXTREME"
       else if 0.6 ≤ (predict_risk none monroe_parcel).overall_score then "HIGH"
       else if 0.4 ≤ (predict_risk none monroe_parcel).overall_score then "MODERATE"
       else if 0.2 ≤ (predict_risk none monroe_parcel).overall_score then "LOW"
       else "MINIMAL") :=
  predict_risk_bounds_and_category none monroe_parcel (by norm_num [monroe_parcel])
    (by norm_num [monroe_parcel]) (by norm_num [monroe_parcel]) (by norm_num [monroe_parcel])
    (by norm_num [monroe_parcel]) (by norm_num [monroe_parcel])

/-- Evaluation of `predict_risk` (no trained model) on the Monroe scenario
parcel. -/
lemma monroe_predict_eval :
    predict_risk none monroe_parcel =
      { parcel_id := "12087-001234"
        overall_score := 749/1200
        confidence := 0.60
        components :=
          { hurricane_historical := 3/4
            wind_vulnerability := 7/15
            surge_exposure := 11/20
            economic_factor := 2/5
            geographic_factor := 1 }
        risk_category := "HIGH" } := by
  norm_num [predict_risk, calculate_risk_components, monroe_parcel, min_def, max_def]

/-- C2 counterexample: on the Monroe scenario parcel with no trained model,
the fallback composite score is `749/1200 ≈ 0.6242`, not `0.5343` (it
exceeds `0.5343` by more than `0.01`, far beyond floating-point tolerance),
and the risk category is `HIGH`, not `MODERATE`. -/
theorem monroe_scenario_not_moderate :
    (predict_risk none monroe_parcel).overall_score = 749/1200 ∧
    (predict_risk none monroe_parcel).risk_category = "HIGH" ∧
    ¬ ((predict_risk none monroe_parcel).risk_category = "MODERATE") ∧
    0.5343 + 1/100 < (predict_risk none monroe_parcel).overall_score := by
  rw [monroe_predict_eval]
  exact ⟨by norm_num, rfl, by simp, by norm_num⟩

/-- C2 amended: on the Monroe scenario parcel with no trained model, the
components are `hurricane_historical = 3/4`, `wind_vulnerability = 7/15 ≈
0.467`, `surge_exposure = 11/20`, `economic_factor = 2/5`,
`geographic_factor = 1`; the fallback composite score is
`0.25·(3/4) + 0.25·(7/15) + 0.20·(11/20) + 0.15·(2/5) + 0.15·1 = 749/1200
≈ 0.6242`, and the risk category is `HIGH`. -/
theorem monroe_scenario_values :
    (predict_risk none monroe_parcel).components =
      { hurricane_historical := 3/4
        wind_vulnerability := 7/15
        surge_exposure := 11/20
        economic_factor := 2/5
        geographic_factor := 1 } ∧
    (predict_risk none monroe_parcel).overall_score =
      (3/4 : ℚ) * 0.25 + (7/15) * 0.25 + (11/20) * 0.20 + (2/5) * 0.15 + 1 * 0.15 ∧
    (predict_risk none monroe_parcel).overall_score = 749/1200 ∧
    (predict_risk none monroe_parcel).confidence = 0.60 ∧
    (predict_risk none monroe_parcel).risk_category = "HIGH" := by
  rw [monroe_predict_eval]
  norm_num

lemma sameKey_updated {α : Type} (pid pid0 : String) (d d0 now : ℤ) (payload : α)
    (r : AssessmentRow α) :
    sameKey pid d
      (if sameKey pid0 d0 r then { r with scores := payload, updated_at := now } else r) =
      sameKey pid d r := by
  split <;> rfl

lemma keys_upsert {α : Type} (today now : ℤ) (pid : String) (payload : α)
    (s : List (AssessmentRow α)) :
    keys (upsert_assessment today now pid payload s) =
      if s.any (sameKey pid today) then keys s else (pid, today) :: keys s := by
  simp only [upsert_assessment]
  split_ifs with h
  · simp only [keys, List.map_map]
    refine List.map_congr_left ?_
    intro r _
    simp only [Function.comp]
    split <;> rfl
  · simp [keys]

lemma KeysNodup_upsert {α : Type} (today now : ℤ) (pid : String) (payload : α)
    {s : List (AssessmentRow α)} (h : KeysNodup s) :
    KeysNodup (upsert_assessment today now pid payload s) := by
  unfold KeysNodup
  rw [keys_upsert]
  split_ifs with hc
  · exact h
  · refine List.nodup_cons.mpr ⟨?_, h⟩
    intro hmem
    simp only [keys, List.mem_map] at hmem
    obtain ⟨r, hr, hkey⟩ := hmem
    have h1 : r.parcel_id = pid := congrArg Prod.fst hkey
    have h2 : r.assessment_date = today := congrArg Prod.snd hkey
    have : s.any (sameKey pid today) = true :=
      List.any_eq_true.mpr ⟨r, hr, by simp [sameKey, h1, h2]⟩
    exact absurd this (by simpa using hc)

/-- Under the unique-key constraint, the rows matching the key of a
present matching row form exactly that singleton. -/
lemma filter_key_singleton {α : Type} {s : List (AssessmentRow α)} (hs : KeysNodup s)
    {pid : String} {d : ℤ} {r0 : AssessmentRow α} (hr0 : r0 ∈ s)
    (hk : sameKey pid d r0 = true) :
    s.filter (sameKey pid d) = [r0] := by
  induction s with
  | nil => cases hr0
  | cons r t ih =>
    have hkeys : (r.parcel_id, r.assessment_date) ∉ keys t := by
      have := (List.nodup_cons.mp hs).1
      simpa [keys] using this
    have ht : KeysNodup t := (List.nodup_cons.mp hs).2
    rcases List.mem_cons.mp hr0 with rfl | hr0t
    · rw [List.filter_cons_of_pos hk]
      have hnil : t.filter (sameKey pid d) = [] := by
        rw [List.filter_eq_nil_iff]
        intro a ha hka
        apply hkeys
        have ha1 : a.parcel_id = pid ∧ a.assessment_date = d := by
          simpa [sameKey] using hka
        have hr1 : r0.parcel_id = pid ∧ r0.assessment_date = d := by
          simpa [sameKey] using hk
        refine List.mem_map.mpr ⟨a, ha, ?_⟩
        rw [ha1.1, ha1.2, hr1.1, hr1.2]
      rw [hnil]
    · have hrneq : ¬ (sameKey pid d r = true) := by
        intro htr
        apply hkeys
        have hr1 : r.parcel_id = pid ∧ r.assessment_date = d := by
          simpa [sameKey] using htr
        have h01 : r0.parcel_id = pid ∧ r0.assessment_date = d := by
          simpa [sameKey] using hk
        refine List.mem_map.mpr ⟨r0, hr0t, ?_⟩
        rw [hr1.1, hr1.2, h01.1, h01.2]
      rw [List.filter_cons_of_neg hrneq]
      exact ih ht hr0t

/-- After an upsert, exactly one row holds the upserted key, and it holds
the upserted payload. -/
lemma rows_for_upsert_self {α : Type} {s : List (AssessmentRow α)} (hs : KeysNodup s)
    (today now : ℤ) (pid : String) (payload : α) :
    rows_for pid today (upsert_assessment today now pid payload s) =
      [{ parcel_id := pid, scores := payload, assessment_date := today, updated_at := now }] := by
  unfold rows_for upsert_assessment
  by_cases hany : s.any (sameKey pid today) = true
  · rw [if_pos hany]
    obtain ⟨r0, hr0, hk0⟩ := List.any_eq_true.mp hany
    rw [List.filter_map, List.filter_congr (fun r _ => by
      simp only [Function.comp]; exact sameKey_updated pid pid today today now payload r)]
    rw [filter_key_singleton hs hr0 hk0, List.map_cons, List.map_nil, if_pos hk0]
    obtain ⟨h1, h2⟩ : r0.parcel_id = pid ∧ r0.assessment_date = today := by
      simpa [sameKey] using hk0
    simp [h1, h2]
  · rw [if_neg hany]
    rw [List.filter_cons_of_pos (by simp [sameKey])]
    have hnil : s.filter (sameKey pid today) = [] := by
      rw [List.filter_eq_nil_iff]
      intro a ha hka
      exact hany (List.any_eq_true.mpr ⟨a, ha, hka⟩)
    rw [hnil]

/-- An upsert leaves the rows of every other key unchanged. -/
lemma rows_for_upsert_other {α : Type} (s : List (AssessmentRow α)) (today now : ℤ)
    (pid pid1 : String) (d1 : ℤ) (payload : α) (hne : ¬(pid1 = pid ∧ d1 = today)) :
    rows_for pid1 d1 (upsert_assessment today now pid payload s) = rows_for pid1 d1 s := by
  unfold rows_for upsert_assessment
  split_ifs with hany
  · rw [List.filter_map, List.filter_congr (fun r _ => by
      simp only [Function.comp]; exact sameKey_updated pid1 pid d1 today now payload r)]
    refine (List.map_congr_left ?_).trans (List.map_id _)
    intro a ha
    have hka : a.parcel_id = pid1 ∧ a.assessment_date = d1 := by
      simpa [sameKey] using (List.mem_filter.mp ha).2
    have hfa : ¬ (sameKey pid today a = true) := by
      intro htr
      obtain ⟨u, v⟩ : a.parcel_id = pid ∧ a.assessment_date = today := by
        simpa [sameKey] using htr
      exact hne ⟨hka.1.symm.trans u, hka.2.symm.trans v⟩
    show _ = id a
    rw [if_neg hfa]
    rfl
  · rw [List.filter_cons_of_neg ?_]
    intro hk
    obtain ⟨hx, hy⟩ : pid = pid1 ∧ today = d1 := by simpa [sameKey] using hk
    exact hne ⟨hx.symm, hy.symm⟩

lemma process_page_fst {α : Type} (assess : String → Option α) (today now : ℤ)
    (page : List String) :
    ∀ (s : List (AssessmentRow α)) (log : List String),
      (process_page assess today now (s, log) page).1 =
        process_page_store assess today now s page := by
  induction page with
  | nil => intro s log; rfl
  | cons p t ih =>
    intro s log
    simp only [process_page, process_page_store, List.foldl_cons] at *
    cases h : assess p <;> simp only [process_parcel, h] <;> exact ih _ _

lemma process_page_snd {α : Type} (assess : String → Option α) (today now : ℤ)
    (page : List String) :
    ∀ (s : List (AssessmentRow α)) (log : List String),
      (process_page assess today now (s, log) page).2 =
        log ++ page.filter (fun q => (assess q).isNone) := by
  induction page with
  | nil => intro s log; simp [process_page]
  | cons p t ih =>
    intro s log
    simp only [process_page, List.foldl_cons] at *
    cases h : assess p
    · rw [List.filter_cons_of_pos (by simp [h])]
      simp only [process_parcel, h]
      rw [ih _ _]
      simp
    · rw [List.filter_cons_of_neg (by simp [h])]
      simp only [process_parcel, h]
      exact ih _ _

lemma process_page_store_filter {α : Type} (assess : String → Option α) (today now : ℤ)
    (page : List String) :
    ∀ s : List (AssessmentRow α),
      process_page_store assess today now s page =
        process_page_store assess today now s
          (page.filter (fun q => (assess q).isSome)) := by
  induction page with
  | nil => intro s; rfl
  | cons p t ih =>
    intro s
    cases h : assess p
    · rw [List.filter_cons_of_neg (by simp [h])]
      simp only [process_page_store, List.foldl_cons, h] at *
      exact ih s
    · rw [List.filter_cons_of_pos (by simp [h])]
      simp only [process_page_store, List.foldl_cons, h] at *
      exact ih _

lemma process_page_store_append {α : Type} (assess : String → Option α) (today now : ℤ)
    (l1 l2 : List String) (s : List (AssessmentRow α)) :
    process_page_store assess today now s (l1 ++ l2) =
      process_page_store assess today now (process_page_store assess today now s l1) l2 :=
  List.foldl_append ..

lemma KeysNodup_process_page_store {α : Type} (assess : String → Option α) (today now : ℤ)
    (page : List String) :
    ∀ {s : List (AssessmentRow α)}, KeysNodup s →
      KeysNodup (process_page_store assess today now s page) := by
  induction page with
  | nil => intro s hs; exact hs
  | cons p t ih =>
    intro s hs
    simp only [process_page_store, List.foldl_cons] at *
    cases h : assess p <;> simp only [h]
    · exact ih hs
    · exact ih (KeysNodup_upsert today now p _ hs)

lemma rows_for_process_page_store_not_mem {α : Type} (assess : String → Option α)
    (today now : ℤ) (pid : String) (d : ℤ) (page : List String)
    (hp : ∀ q ∈ page, q ≠ pid) :
    ∀ s : List (AssessmentRow α),
      rows_for pid d (process_page_store assess today now s page) = rows_for pid d s := by
  induction page with
  | nil => intro s; rfl
  | cons p t ih =>
    intro s
    simp only [process_page_store, List.foldl_cons] at *
    cases h : assess p <;> simp only [h]
    · exact ih (fun q hq => hp q (List.mem_cons_of_mem _ hq)) s
    · rw [ih (fun q hq => hp q (List.mem_cons_of_mem _ hq)) _]
      exact rows_for_upsert_other s today now p pid d _
        (fun hc => hp p (List.mem_cons_self _ _) hc.1.symm)

lemma rows_for_process_page_store_mem {α : Type} (assess : String → Option α)
    (today now : ℤ) (pid : String) (v : α) (page : List String) (hnd : page.Nodup)
    (hp : pid ∈ page) (hv : assess pid = some v) :
    ∀ {s : List (AssessmentRow α)}, KeysNodup s →
      rows_for pid today (process_page_store assess today now s page) =
        [{ parcel_id := pid, scores := v, assessment_date := today, updated_at := now }] := by
  induction page with
  | nil => cases hp
  | cons p t ih =>
    intro s hs
    rcases List.mem_cons.mp hp with rfl | hpt
    · have hstep : process_page_store assess today now s (pid :: t) =
          process_page_store assess today now (upsert_assessment today now pid v s) t := by
        simp only [process_page_store, List.foldl_cons, hv]
      rw [hstep]
      have hnt : ∀ q ∈ t, q ≠ pid := by
        intro q hq hqe
        exact (List.nodup_cons.mp hnd).1 (hqe ▸ hq)
      rw [rows_for_process_page_store_not_mem assess today now pid today t hnt _]
      exact rows_for_upsert_self hs today now pid v
    · cases h : assess p
      · have hstep : process_page_store assess today now s (p :: t) =
            process_page_store assess today now s t := by
          simp only [process_page_store, List.foldl_cons, h]
        rw [hstep]
        exact ih (List.nodup_cons.mp hnd).2 hpt hs
      · rename_i w
        have hstep : process_page_store assess today now s (p :: t) =
            process_page_store assess today now (upsert_assessment today now p w s) t := by
          simp only [process_page_store, List.foldl_cons, h]
        rw [hstep]
        exact ih (List.nodup_cons.mp hnd).2 hpt (KeysNodup_upsert today now p _ hs)

lemma to_pages_aux_flatten {β : Type} (batch : ℕ) (hb : 1 ≤ batch) :
    ∀ (fuel : ℕ) (l : List β), l.length ≤ fuel → (to_pages_aux batch fuel l).flatten = l := by
  intro fuel
  induction fuel with
  | zero =>
    intro l hl
    cases l with
    | nil => rfl
    | cons p t => simp at hl
  | succ fuel ih =>
    intro l hl
    cases l with
    | nil => rfl
    | cons p t =>
      simp only [to_pages_aux, List.flatten_cons]
      rw [ih _ ?_, List.take_append_drop]
      rw [List.length_drop]
      simp only [List.length_cons] at hl ⊢
      omega

lemma to_pages_flatten {β : Type} (batch : ℕ) (hb : 1 ≤ batch) (l : List β) :
    (to_pages batch l).flatten = l :=
  to_pages_aux_flatten batch hb l.length l le_rfl

lemma run_pages_all_ok {α : Type} (assess : String → Option α) (commit_ok : ℕ → Bool)
    (batch : ℕ) (today now : ℤ) (hc : ∀ off, commit_ok off = true) (pages : List (List String)) :
    ∀ (off : ℕ) (st : List (AssessmentRow α) × List String),
      run_pages assess commit_ok batch today now off st pages =
        .ok (pages.foldl (process_page assess today now) st) := by
  induction pages with
  | nil => intro off st; rfl
  | cons page rest ih =>
    intro off st
    simp only [run_pages, hc off, if_true, List.foldl_cons]
    exact ih _ _

lemma foldl_process_page_fst {α : Type} (assess : String → Option α) (today now : ℤ)
    (pages : List (List String)) :
    ∀ (s : List (AssessmentRow α)) (log : List String),
      (pages.foldl (process_page assess today now) (s, log)).1 =
        process_page_store assess today now s pages.flatten := by
  induction pages with
  | nil => intro s log; rfl
  | cons page rest ih =>
    intro s log
    simp only [List.foldl_cons, List.flatten_cons]
    rw [process_page_store_append, ← process_page_fst assess today now page s log]
    exact ih (process_page assess today now (s, log) page).1
      (process_page assess today now (s, log) page).2

/-- C3: for every parcel set and fixed day with unchanged inputs, running
the batch driver twice on that day leaves exactly one assessment row per
parcel keyed by `(parcel_id, assessment_date)` with identical scores: the
second run overwrites via the upsert and never inserts a duplicate row for
the same key. -/
theorem driver_idempotent_per_day {α : Type} (f : String → α) (batch : ℕ) (hb : 1 ≤ batch)
    (today now1 now2 : ℤ) (parcels : List String) (hnd : parcels.Nodup)
    (s0 : List (AssessmentRow α)) (h0 : KeysNodup s0) :
    ∃ (s1 s2 : List (AssessmentRow α)) (log1 log2 : List String),
      calculate_parcel_risk_assessments (fun p => some (f p)) (fun _ => true) batch today now1
        parcels s0 = .ok (s1, log1) ∧
      calculate_parcel_risk_assessments (fun p => some (f p)) (fun _ => true) batch today now2
        parcels s1 = .ok (s2, log2) ∧
      KeysNodup s2 ∧
      ∀ p ∈ parcels,
        rows_for p today s1 =
          [{ parcel_id := p, scores := f p, assessment_date := today, updated_at := now1 }] ∧
        rows_for p today s2 =
          [{ parcel_id := p, scores := f p, assessment_date := today, updated_at := now2 }] ∧
        (rows_for p today s1).map (fun r => r.scores) = [f p] ∧
        (rows_for p today s2).map (fun r => r.scores) = [f p] := by
  obtain ⟨s1, log1, hst1⟩ : ∃ s1 log1,
      (to_pages batch parcels).foldl (process_page (fun p => some (f p)) today now1)
        (s0, []) = (s1, log1) := ⟨_, _, rfl⟩
  obtain ⟨s2, log2, hst2⟩ : ∃ s2 log2,
      (to_pages batch parcels).foldl (process_page (fun p => some (f p)) today now2)
        (s1, []) = (s2, log2) := ⟨_, _, rfl⟩
  have hs1 : s1 = process_page_store (fun p => some (f p)) today now1 s0 parcels := by
    have h := foldl_process_page_fst (fun p => some (f p)) today now1 (to_pages batch parcels)
      s0 []
    rw [hst1, to_pages_flatten batch hb] at h
    exact h
  have hs2 : s2 = process_page_store (fun p => some (f p)) today now2 s1 parcels := by
    have h := foldl_process_page_fst (fun p => some (f p)) today now2 (to_pages batch parcels)
      s1 []
    rw [hst2, to_pages_flatten batch hb] at h
    exact h
  have hk1 : KeysNodup s1 := by
    rw [hs1]; exact KeysNodup_process_page_store _ today now1 parcels h0
  have hk2 : KeysNodup s2 := by
    rw [hs2]; exact KeysNodup_process_page_store _ today now2 parcels hk1
  refine ⟨s1, s2, log1, log2, ?_, ?_, hk2, ?_⟩
  · unfold calculate_parcel_risk_assessments
    rw [run_pages_all_ok _ _ batch today now1 (fun _ => rfl) _ 0 (s0, []), hst1]
  · unfold calculate_parcel_risk_assessments
    rw [run_pages_all_ok _ _ batch today now2 (fun _ => rfl) _ 0 (s1, []), hst2]
  · intro p hp
    have r1 : rows_for p today s1 =
        [{ parcel_id := p, scores := f p, assessment_date := today, updated_at := now1 }] := by
      rw [hs1]
      exact rows_for_process_page_store_mem _ today now1 p (f p) parcels hnd hp rfl h0
    have r2 : rows_for p today s2 =
        [{ parcel_id := p, scores := f p, assessment_date := today, updated_at := now2 }] := by
      rw [hs2]
      exact rows_for_process_page_store_mem _ today now2 p (f p) parcels hnd hp rfl hk1
    exact ⟨r1, r2, by rw [r1]; rfl, by rw [r2]; rfl⟩

/-- C3 witness: the idempotence statement at the concrete parcel set
`["a", "bb"]`, payload `String.length`, batch size 1, empty initial
store. -/
theorem driver_idempotent_per_day_witness :
    ∃ (s1 s2 : List (AssessmentRow ℕ)) (log1 log2 : List String),
      calculate_parcel_risk_assessments (fun p => some p.length) (fun _ => true) 1 0 5
        ["a", "bb"] [] = .ok (s1, log1) ∧
      calculate_parcel_risk_assessments (fun p => some p.length) (fun _ => true) 1 0 7
        ["a", "bb"] s1 = .ok (s2, log2) ∧
      KeysNodup s2 ∧
      ∀ p ∈ ["a", "bb"],
        rows_for p 0 s1 =
          [{ parcel_id := p, scores := p.length, assessment_date := 0, updated_at := 5 }] ∧
        rows_for p 0 s2 =
          [{ parcel_id := p, scores := p.length, assessment_date := 0, updated_at := 7 }] ∧
        (rows_for p 0 s1).map (fun r => r.scores) = [p.length] ∧
        (rows_for p 0 s2).map (fun r => r.scores) = [p.length] :=
  driver_idempotent_per_day (fun p => p.length) 1 (by norm_num) 0 5 7 ["a", "bb"]
    (by decide) [] (by simp [KeysNodup, keys])

/-- C9: a failure computing the risk upsert for a single parcel within a
page is caught and logged with that parcel's identity and does not abort
the rest of the page (the store after the page equals the store obtained
by processing exactly the succeeding parcels of the page), whereas a
failure committing a page is fatal: if the first `k` commits succeed and
the commit at offset `off + batch·k` fails, the run halts with an error
carrying that offset, the store rolls back to the last committed page, and
the log keeps the per-parcel errors recorded during the failed page. -/
theorem driver_page_error_isolation {α : Type} (assess : String → Option α)
    (commit_ok : ℕ → Bool) (batch : ℕ) (today now : ℤ) :
    (∀ (page : List String) (s : List (AssessmentRow α)) (log : List String) (pid : String),
      pid ∈ page → assess pid = none →
        pid ∈ (process_page assess today now (s, log) page).2 ∧
        (process_page assess today now (s, log) page).1 =
          process_page_store assess today now s
            (page.filter (fun q => (assess q).isSome))) ∧
    (∀ (pages : List (List String)) (off k : ℕ)
      (st : List (AssessmentRow α) × List String) (hk : k < pages.length),
      (∀ j, j < k → commit_ok (off + batch * j) = true) →
      commit_ok (off + batch * k) = false →
      run_pages assess commit_ok batch today now off st pages =
        .error (off + batch * k,
          ((pages.take k).foldl (process_page assess today now) st).1,
          (process_page assess today now
            ((pages.take k).foldl (process_page assess today now) st)
            (pages.get ⟨k, hk⟩)).2)) := by
  constructor
  · intro page s log pid hmem hnone
    constructor
    · rw [process_page_snd]
      refine List.mem_append.mpr (Or.inr ?_)
      exact List.mem_filter.mpr ⟨hmem, by simp [hnone]⟩
    · rw [process_page_fst, process_page_store_filter]
  · intro pages
    induction pages with
    | nil => intro off k st hk; exact absurd hk (by simp)
    | cons page rest ih =>
      intro off k st hk hok hfail
      cases k with
      | zero =>
        have h0 : commit_ok off = false := by simpa using hfail
        simp only [run_pages, h0, Bool.false_eq_true, if_false, List.take_zero,
          List.foldl_nil, List.get, Nat.mul_zero, Nat.add_zero]
      | succ k =>
        have h0 : commit_ok off = true := by
          have := hok 0 (Nat.succ_pos k)
          simpa using this
        have hk1 : k < rest.length := by simpa using hk
        have hok1 : ∀ j, j < k → commit_ok (off + batch + batch * j) = true := by
          intro j hj
          have := hok (j + 1) (by omega)
          have harith : off + batch * (j + 1) = off + batch + batch * j := by ring
          rwa [harith] at this
        have hfail1 : commit_ok (off + batch + batch * k) = false := by
          have harith : off + batch * (k + 1) = off + batch + batch * k := by ring
          rwa [harith] at hfail
        have hrec := ih (off + batch) k (process_page assess today now st page) hk1
          hok1 hfail1
        simp only [run_pages, h0, if_true]
        rw [hrec]
        have harith : off + batch + batch * k = off + batch * (k + 1) := by ring
        simp only [harith, List.take_succ_cons, List.foldl_cons, List.get]

/-- C9 witness: the error-isolation statement at the concrete inputs: a
failing parcel `"bad"` is logged and does not abort its page, and the
commit failure at offset `0 + 2·1` halts the run there. -/
theorem driver_page_error_isolation_witness :
    ("bad" ∈ (process_page assessW 0 0 ([], []) ["a", "bad"]).2 ∧
      (process_page assessW 0 0 ([], []) ["a", "bad"]).1 =
        process_page_store assessW 0 0 []
          (["a", "bad"].filter (fun q => (assessW q).isSome))) ∧
    run_pages assessW commitW 2 0 0 0 ([], []) pagesW =
      .error (0 + 2 * 1,
        ((pagesW.take 1).foldl (process_page assessW 0 0) ([], [])).1,
        (process_page assessW 0 0
          ((pagesW.take 1).foldl (process_page assessW 0 0) ([], []))
          (pagesW.get ⟨1, by simp [pagesW]⟩)).2) :=
  ⟨(driver_page_error_isolation assessW commitW 2 0 0).1 ["a", "bad"] [] [] "bad"
      (by simp) (by simp [assessW]),
    (driver_page_error_isolation assessW commitW 2 0 0).2 pagesW 0 1 ([], [])
      (by simp [pagesW])
      (by
        intro j hj
        have hj0 : j = 0 := by omega
        subst hj0
        rfl)
      rfl⟩

lemma mem_latest_dates_iff {α : Type} (s : List (AssessmentRow α)) (d : ℤ) :
    d ∈ latest_dates s ↔ ∃ r2 ∈ s, parcel_max_date s r2.parcel_id = some d := by
  unfold latest_dates
  rw [List.mem_filterMap]
  constructor
  · rintro ⟨pid, hpid, hmax⟩
    rw [List.mem_dedup, List.mem_map] at hpid
    obtain ⟨r2, hr2, rfl⟩ := hpid
    exact ⟨r2, hr2, hmax⟩
  · rintro ⟨r2, hr2, hmax⟩
    exact ⟨r2.parcel_id, List.mem_dedup.mpr (List.mem_map.mpr ⟨r2, hr2, rfl⟩), hmax⟩

/-- C5: retention cleanup never deletes the row holding a parcel's
most-recent assessment date, regardless of the retention window or of how
old that row is. -/
theorem cleanup_keeps_latest {α : Type} (today n : ℤ) (s : List (AssessmentRow α))
    (r : AssessmentRow α) (hr : r ∈ s)
    (hmax : parcel_max_date s r.parcel_id = some r.assessment_date) :
    r ∈ cleanup_risk_assessments today n s := by
  refine List.mem_filter.mpr ⟨hr, ?_⟩
  have hmem : r.assessment_date ∈ latest_dates s :=
    (mem_latest_dates_iff s r.assessment_date).mpr ⟨r, hr, hmax⟩
  have hcont : (latest_dates s).contains r.assessment_date = true :=
    List.elem_eq_true_of_mem hmem
  simp [hcont]
  exact Or.inr hmem

/-- C5 witness: parcel `A`'s latest row (day 10) survives a cleanup on day
100 with a 50-day retention even though it is older than the cutoff. -/
theorem cleanup_keeps_latest_witness :
    ({ parcel_id := "A", scores := 0, assessment_date := 10, updated_at := 0 } : AssessmentRow ℕ)
      ∈ cleanup_risk_assessments 100 50 exampleAssessments :=
  cleanup_keeps_latest 100 50 exampleAssessments _ (by decide) (by decide)

/-- C6 counterexample: the row `(A, day 0)` is older than the 50-day
cutoff on day 100 and is not parcel `A`'s most-recent assessment (that is
day 10), so by the claim it must be deleted — yet cleanup keeps it,
because day 0 is parcel `B`'s maximum date and the `NOT IN` subquery is
not correlated by parcel. -/
theorem cleanup_not_correlated_counterexample :
    ({ parcel_id := "A", scores := 0, assessment_date := 0, updated_at := 0 } : AssessmentRow ℕ)
      ∈ exampleAssessments ∧
    (0 : ℤ) < 100 - 50 ∧
    parcel_max_date exampleAssessments "A" = some 10 ∧
    ({ parcel_id := "A", scores := 0, assessment_date := 0, updated_at := 0 } : AssessmentRow ℕ)
      ∈ cleanup_risk_assessments 100 50 exampleAssessments := by
  decide

/-- C6 amended: cleanup deletes exactly those rows whose assessment date
is older than the cutoff AND does not equal the per-parcel maximum date of
ANY parcel in the table (so an old non-latest row survives whenever its
date coincides with some parcel's latest date). -/
theorem cleanup_risk_characterization {α : Type} (today n : ℤ) (s : List (AssessmentRow α))
    (r : AssessmentRow α) (hr : r ∈ s) :
    r ∈ cleanup_risk_assessments today n s ↔
      ¬(r.assessment_date < today - n ∧
        ¬∃ r2 ∈ s, parcel_max_date s r2.parcel_id = some r.assessment_date) := by
  have hiff := mem_latest_dates_iff s r.assessment_date
  unfold cleanup_risk_assessments
  rw [List.mem_filter]
  simp only [hr, true_and]
  rcases Classical.em (r.assessment_date < today - n) with h1 | h1 <;>
    rcases Classical.em (r.assessment_date ∈ latest_dates s) with h2 | h2 <;>
    simp [h1, h2, List.contains, ← hiff]

/-- C6 amended-claim witness: the characterization applied to the row
`(A, day 0)` of the concrete store. -/
theorem cleanup_risk_characterization_witness :
    ({ parcel_id := "A", scores := 0, assessment_date := 0, updated_at := 0 } : AssessmentRow ℕ)
      ∈ cleanup_risk_assessments 100 50 exampleAssessments ↔
      ¬((0 : ℤ) < 100 - 50 ∧
        ¬∃ r2 ∈ exampleAssessments,
          parcel_max_date exampleAssessments r2.parcel_id = some 0) :=
  cleanup_risk_characterization 100 50 exampleAssessments
    { parcel_id := "A", scores := 0, assessment_date := 0, updated_at := 0 } (by decide)

/-- C10: cleanup with an absent retention key performs no deletion for
that data type (in particular the empty mapping deletes nothing at all),
and in every case only the active-events and risk-assessment stores can be
modified: parcels, properties, notifications and metrics are untouched. -/
theorem cleanup_old_data_frame {α γ : Type} (now today : ℤ) (ret : RetentionDays)
    (db : Database α γ) :
    (cleanup_old_data now today ret db).parcels = db.parcels ∧
    (cleanup_old_data now today ret db).properties = db.properties ∧
    (cleanup_old_data now today ret db).notifications = db.notifications ∧
    (cleanup_old_data now today ret db).analytics_metrics = db.analytics_metrics ∧
    (ret.active_events = none →
      (cleanup_old_data now today ret db).active_events = db.active_events) ∧
    (ret.risk_assessments = none →
      (cleanup_old_data now today ret db).parcel_risk_assessment =
        db.parcel_risk_assessment) ∧
    (ret = {} → cleanup_old_data now today ret db = db) := by
  obtain ⟨ra, rr⟩ := ret
  cases ra <;> cases rr <;>
    simp [cleanup_old_data, RetentionDays.mk.injEq]

/-- C10 witness: the frame property at a concrete database and the empty
retention mapping. -/
theorem cleanup_old_data_frame_witness :
    (cleanup_old_data 100 100 {} dbW).parcels = dbW.parcels ∧
    (cleanup_old_data 100 100 {} dbW).properties = dbW.properties ∧
    (cleanup_old_data 100 100 {} dbW).notifications = dbW.notifications ∧
    (cleanup_old_data 100 100 {} dbW).analytics_metrics = dbW.analytics_metrics ∧
    (({} : RetentionDays).active_events = none →
      (cleanup_old_data 100 100 {} dbW).active_events = dbW.active_events) ∧
    (({} : RetentionDays).risk_assessments = none →
      (cleanup_old_data 100 100 {} dbW).parcel_risk_assessment =
        dbW.parcel_risk_assessment) ∧
    (({} : RetentionDays) = {} → cleanup_old_data 100 100 {} dbW = dbW) :=
  cleanup_old_data_frame 100 100 {} dbW

lemma link_property_of_isSome {γ : Type} (lower_trim : String → String)
    (sim : String → String → ℚ) (parcels : List (ParcelRow γ)) (p : PropertyRow)
    (hs : p.parcel_id.isSome) : link_property lower_trim sim parcels p = p := by
  unfold link_property
  obtain ⟨v, hv⟩ := Option.isSome_iff_exists.mp hs
  rw [hv]
  simp

/-- C8: a property whose `parcel_id` is already set is left entirely
unchanged by any number of resolver runs, with any parcel data and any
similarity function. -/
theorem resolver_preserves_links {α γ : Type} (lower_trim : String → String)
    (sim : String → String → ℚ) (db : Database α γ) (n : ℕ) (i : ℕ) (p : PropertyRow)
    (hi : db.properties.get? i = some p) (hs : p.parcel_id.isSome) :
    ((fun d => update_property_parcel_links lower_trim sim d)^[n] db).properties.get?
      i = some p := by
  induction n generalizing db with
  | zero => simpa using hi
  | succ n ih =>
    rw [Function.iterate_succ_apply]
    refine ih _ ?_
    unfold update_property_parcel_links
    simp only [List.get?_map, hi, Option.map_some']
    rw [link_property_of_isSome lower_trim sim db.parcels p hs]

/-- C8 witness: a database whose single property is already linked is
unchanged by two resolver runs. -/
theorem resolver_preserves_links_witness :
    ((fun d => update_property_parcel_links (fun s => s) (fun _ _ => 1) d)^[2]
        dbLinked).properties.get? 0 =
      some { propW with parcel_id := some "P9" } :=
  resolver_preserves_links (fun s => s) (fun _ _ => 1) dbLinked 2 0
    { propW with parcel_id := some "P9" } rfl rfl

/-- C7 amended: an unlinked property having a same-county parcel whose
normalized street+city similarity is STRICTLY greater than `0.8` gets
linked (its `parcel_id` becomes non-null) by one resolver run. -/
theorem resolver_links_above_threshold {α γ : Type} (lower_trim : String → String)
    (sim : String → String → ℚ) (db : Database α γ) (i : ℕ) (p : PropertyRow)
    (gp : ParcelRow γ) (hi : db.properties.get? i = some p) (hnone : p.parcel_id = none)
    (hgp : gp ∈ db.parcels) (hcounty : p.county = gp.county_name)
    (hsim : sim (norm_street_city lower_trim p) (lower_trim gp.property_address) > 0.8) :
    ∃ q, (update_property_parcel_links lower_trim sim db).properties.get? i = some q ∧
      q.parcel_id.isSome := by
  unfold update_property_parcel_links
  simp only [List.get?_map, hi, Option.map_some']
  have hmatch : link_match lower_trim sim p gp = true := by
    unfold link_match
    rw [Bool.and_eq_true, Bool.or_eq_true]
    exact ⟨Or.inr (decide_eq_true hsim), beq_iff_eq.mpr hcounty⟩
  have hfind : (db.parcels.find? (link_match lower_trim sim p)).isSome := by
    rw [List.find?_isSome]
    exact ⟨gp, hgp, hmatch⟩
  obtain ⟨gp1, hgp1⟩ := Option.isSome_iff_exists.mp hfind
  refine ⟨_, rfl, ?_⟩
  unfold link_property
  rw [hnone, hgp1]
  rfl

/-- C7 witness (amended claim): with similarity constantly `0.9`, the
unlinked concrete property in the same county as the concrete parcel gets
linked. -/
theorem resolver_links_above_threshold_witness :
    ∃ q, (update_property_parcel_links (fun s => s) (fun _ _ => 0.9) dbW).properties.get?
        0 = some q ∧ q.parcel_id.isSome :=
  resolver_links_above_threshold (fun s => s) (fun _ _ => 0.9) dbW 0 propW parcelW
    rfl rfl (by simp [dbW]) rfl (by norm_num)

/-- C7 counterexample: with trigram similarity exactly `0.8` (and no exact
address match), the same-county unlinked property is NOT linked — the
source compares with strict `> 0.8`, so similarity exactly `0.8` does not
qualify. -/
theorem resolver_threshold_is_strict :
    (fun _ _ => (0.8 : ℚ)) (norm_street_city (fun s => s) propW)
        ((fun s : String => s) parcelW.property_address) = 0.8 ∧
    (0.8 : ℚ) ≥ 0.8 ∧
    propW.county = parcelW.county_name ∧
    propW.parcel_id = none ∧
    (update_property_parcel_links (fun s => s) (fun _ _ => (0.8 : ℚ)) dbW).properties =
      dbW.properties := by
  refine ⟨rfl, le_refl _, rfl, rfl, ?_⟩
  have hmatch : link_match (fun s : String => s) (fun _ _ => (0.8 : ℚ)) propW parcelW
      = false := by
    unfold link_match norm_full_address
    have hexact : (((fun s : String => s)
          (propW.street_address ++ " " ++ propW.city ++ ", FL " ++ propW.zip_code)) ==
        (fun s : String => s) parcelW.property_address) = false := by decide
    have hsim : (decide ((fun _ _ => (0.8 : ℚ)) (norm_street_city (fun s : String => s) propW)
        ((fun s : String => s) parcelW.property_address) > 0.8)) = false :=
      decide_eq_false (by norm_num)
    rw [hexact, hsim]
    rfl
  unfold update_property_parcel_links
  simp only [dbW, List.map_cons, List.map_nil]
  have hfind : List.find? (link_match (fun s : String => s) (fun _ _ => (0.8 : ℚ)) propW)
      [parcelW] = none := by
    rw [List.find?_cons_of_neg _ (by rw [hmatch]; exact Bool.false_ne_true),
      List.find?_nil]
  have hlp : link_property (fun s : String => s) (fun _ _ => (0.8 : ℚ)) [parcelW] propW
      = propW := by
    unfold link_property
    rw [hfind]
    split <;> rfl
  rw [hlp]

/-- Under the tables' key constraints, the `(event_id, property_id)`
pairs of the affected triples are pairwise distinct: each joined row
appears once. -/
lemma affected_triples_pairs_nodup {γ : Type} (intersects : γ → γ → Bool)
    (events : List (EventRow γ)) (parcels : List (ParcelRow γ)) (props : List PropertyRow)
    (hev : (events.map EventRow.id).Nodup) (hparc : (parcels.map ParcelRow.parcel_id).Nodup)
    (hprop : (props.map PropertyRow.id).Nodup) :
    ((affected_triples intersects events parcels props).map
      (fun t => (t.2.1, t.2.2))).Nodup := by
  unfold affected_triples
  rw [List.map_flatMap, List.nodup_flatMap]
  constructor
  · intro ae hae
    rw [List.map_flatMap, List.nodup_flatMap]
    constructor
    · intro gp hgp
      rw [List.map_map]
      have hsub : ((props.filter (fun p => p.parcel_id == some gp.parcel_id)).map
          PropertyRow.id).Sublist (props.map PropertyRow.id) :=
        (List.filter_sublist _).map _
      have hids : ((props.filter (fun p => p.parcel_id == some gp.parcel_id)).map
          PropertyRow.id).Nodup := hprop.sublist hsub
      have hre : (props.filter (fun p => p.parcel_id == some gp.parcel_id)).map
            ((fun t : String × ℕ × ℕ => (t.2.1, t.2.2)) ∘ (fun p => (p.user_id, ae.id, p.id)))
          = ((props.filter (fun p => p.parcel_id == some gp.parcel_id)).map
              PropertyRow.id).map (fun i => (ae.id, i)) := by
        rw [List.map_map]
        rfl
      rw [hre]
      refine hids.map ?_
      intro a b hab
      exact (Prod.ext_iff.mp hab).2
    · have hpairs : (parcels.filter (fun gp => intersects ae.geom gp.geom)).Pairwise
          (fun a b => a.parcel_id ≠ b.parcel_id) :=
        ((List.pairwise_map.mp hparc).sublist (List.filter_sublist _))
      refine hpairs.imp ?_
      intro gp1 gp2 hne x hx1 hx2
      simp only [List.map_map, List.mem_map, List.mem_filter, Function.comp] at hx1 hx2
      obtain ⟨p1, ⟨hp1, hl1⟩, hx1e⟩ := hx1
      obtain ⟨p2, ⟨hp2, hl2⟩, hx2e⟩ := hx2
      have hid12 : p1.id = p2.id := by
        have h1 : x.2 = p1.id := by rw [← hx1e]
        have h2 : x.2 = p2.id := by rw [← hx2e]
        rw [← h1, h2]
      have hp12 : p1 = p2 := List.inj_on_of_nodup_map hprop hp1 hp2 hid12
      apply hne
      have hl1e : p1.parcel_id = some gp1.parcel_id := by simpa using hl1
      have hl2e : p2.parcel_id = some gp2.parcel_id := by simpa using hl2
      rw [hp12] at hl1e
      exact Option.some.inj (hl1e.symm.trans hl2e)
  · have hpairs : (events.filter (fun ae => ae.status == "active")).Pairwise
        (fun a b => a.id ≠ b.id) :=
      ((List.pairwise_map.mp hev).sublist (List.filter_sublist _))
    refine hpairs.imp ?_
    intro ae1 ae2 hne x hx1 hx2
    simp only [List.map_flatMap, List.mem_flatMap, List.map_map, List.mem_map,
      Function.comp] at hx1 hx2
    obtain ⟨gp1, hgp1, p1, hp1, hx1e⟩ := hx1
    obtain ⟨gp2, hgp2, p2, hp2, hx2e⟩ := hx2
    apply hne
    have h1 : x.1 = ae1.id := by rw [← hx1e]
    have h2 : x.1 = ae2.id := by rw [← hx2e]
    rw [← h1, h2]

/-- One detector run at time `now` preserves the 24-hour dedup invariant
and leaves no notification dated after `now`. -/
lemma detect_active_event_impacts_step {α γ : Type} (intersects : γ → γ → Bool) (now : ℤ)
    (db : Database α γ) (hids : UniqueIds db) (hnd : NoDup24 db.notifications)
    (hb : CreatedBefore now db.notifications) :
    NoDup24 (detect_active_event_impacts intersects now db).notifications ∧
    CreatedBefore now (detect_active_event_impacts intersects now db).notifications := by
  obtain ⟨hev, hparc, hprop⟩ := hids
  have hpairs := affected_triples_pairs_nodup intersects db.active_events db.parcels
    db.properties hev hparc hprop
  have hnew : ∀ n ∈ (affected_triples intersects db.active_events db.parcels
        db.properties).filterMap
        (fun t =>
          if dup_exists db.notifications now t then none
          else some (notif_of now t)),
      n.created_at = now ∧
        dup_exists db.notifications now (n.user_id, n.event_id, n.property_id) = false := by
    intro n hn
    obtain ⟨t, ht, hgt⟩ := List.mem_filterMap.mp hn
    by_cases hd : dup_exists db.notifications now t = true
    · rw [if_pos hd] at hgt
      cases hgt
    · rw [if_neg hd] at hgt
      obtain rfl := Option.some.inj hgt
      exact ⟨rfl, eq_false_of_ne_true hd⟩
  constructor
  · unfold NoDup24 detect_active_event_impacts
    rw [List.pairwise_append]
    refine ⟨hnd, ?_, ?_⟩
    · rw [List.pairwise_filterMap]
      have hp : (affected_triples intersects db.active_events db.parcels
            db.properties).Pairwise
          (fun t1 t2 => (t1.2.1, t1.2.2) ≠ (t2.2.1, t2.2.2)) :=
        List.pairwise_map.mp hpairs
      refine hp.imp ?_
      intro t1 t2 hne b hb1 b' hb2 hu he hp'
      exfalso
      apply hne
      have hb1e : b.event_id = t1.2.1 ∧ b.property_id = t1.2.2 := by
        by_cases hd : dup_exists db.notifications now t1 = true
        · rw [if_pos hd] at hb1; cases hb1
        · rw [if_neg hd] at hb1
          obtain rfl := (Option.some.inj (Option.mem_def.mp hb1)).symm
          exact ⟨rfl, rfl⟩
      have hb2e : b'.event_id = t2.2.1 ∧ b'.property_id = t2.2.2 := by
        by_cases hd : dup_exists db.notifications now t2 = true
        · rw [if_pos hd] at hb2; cases hb2
        · rw [if_neg hd] at hb2
          obtain rfl := (Option.some.inj (Option.mem_def.mp hb2)).symm
          exact ⟨rfl, rfl⟩
      rw [← hb1e.1, ← hb1e.2, ← hb2e.1, ← hb2e.2, he, hp']
    · intro n1 h1 n2 h2 hu he hp'
      obtain ⟨hn2now, hdup⟩ := hnew n2 h2
      have hall := List.any_eq_false.mp hdup n1 h1
      have hlate : ¬(n1.created_at > now - 24) := by
        intro hgt
        apply hall
        simp [hu, he, hp', hgt]
      have h24 : n1.created_at ≤ now - 24 := by omega
      rw [hn2now, abs_sub_comm, abs_of_nonneg (by omega : (0 : ℤ) ≤ now - n1.created_at)]
      omega
  · intro n hn
    rcases List.mem_append.mp hn with hold | hnewm
    · exact hb n hold
    · exact le_of_eq (hnew n hnewm).1

/-- C4: across every sequence of detector runs at nondecreasing times, the
notifications store never contains two notifications for the same
(user, event, property) triple created within a trailing 24-hour window
of each other, provided the joined tables have unique keys, the initial
store satisfies the invariant, and no initial notification postdates the
first run. -/
theorem detector_never_duplicates_within_24h {α γ : Type} (intersects : γ → γ → Bool)
    (t0 : ℤ) (times : List ℤ) (db : Database α γ) (hids : UniqueIds db)
    (hnd : NoDup24 db.notifications) (hb : CreatedBefore t0 db.notifications)
    (hchain : List.Chain (· ≤ ·) t0 times) :
    NoDup24 (run_detector_seq intersects times db).notifications := by
  induction times generalizing db t0 with
  | nil => exact hnd
  | cons t ts ih =>
    rw [List.chain_cons] at hchain
    obtain ⟨ht0t, hchain1⟩ := hchain
    have hb1 : CreatedBefore t db.notifications := fun n hn => le_trans (hb n hn) ht0t
    obtain ⟨hnd1, hb2⟩ :=
      detect_active_event_impacts_step intersects t db ⟨hids.1, hids.2.1, hids.2.2⟩ hnd hb1
    exact ih t (detect_active_event_impacts intersects t db) hids hnd1 hb2 hchain1

/-- C4 witness: two consecutive detector runs at hours 0 and 1 over the
concrete database keep the dedup invariant. -/
theorem detector_never_duplicates_witness :
    NoDup24 (run_detector_seq (fun a b => a == b) [0, 1] dbDetect).notifications :=
  detector_never_duplicates_within_24h (fun a b => a == b) 0 [0, 1] dbDetect
    ⟨by decide, by decide, by decide⟩ List.Pairwise.nil
    (fun n hn => by simp [dbDetect] at hn)
    (List.Chain.cons (by norm_num) (List.Chain.cons (by norm_num) List.Chain.nil))

end ClaimGuardian
